import Mathlib

/-!
Verification development for the realzodiac-vanilla star-map core.

The repository computes astronomical positions (Sun, Moon, planets, special
points), classifies the Sun's ecliptic longitude into one of 13 zodiacal
constellations, looks up a calendar-based tropical sign, and renders the scene
with a stereographic projection centered on the Sun.

The embedding below translates the JavaScript sources:
  * `src/astronomy.js` (two generations: one computing everything locally,
    one delegating Sun/Moon/planets to the external astronomy-engine library),
  * `src/rendering.js` (two generations of `project` and `drawStarMap`).

Number handling: JavaScript floating-point arithmetic is modelled by exact
arithmetic — `ℚ` for the table lookups and the Moon-phase computation (whose
constants are decimal literals), `ℝ` for the trigonometric code.  The
JavaScript `%` operator (truncated remainder, sign of the dividend) is
modelled by `jsMod` below.
-/

namespace RealZodiac

/-! ### JavaScript `%` (truncated remainder)

JavaScript's `%` on numbers returns `a - b * q` where `q` is `a / b` rounded
toward zero.  `jsTrunc` is round-toward-zero; `jsMod` is the remainder. -/

def jsTrunc {α : Type} [LinearOrderedRing α] [FloorRing α] (x : α) : ℤ :=
  if 0 ≤ x then ⌊x⌋ else ⌈x⌉

def jsMod {α : Type} [LinearOrderedField α] [FloorRing α] (a b : α) : α :=
  a - b * (jsTrunc (a / b) : α)

theorem jsMod_bounds {α : Type} [LinearOrderedField α] [FloorRing α]
    (a b : α) (hb : 0 < b) : -b < jsMod a b ∧ jsMod a b < b := by
  unfold jsMod jsTrunc
  split_ifs with h
  · have h1 : (⌊a / b⌋ : α) ≤ a / b := Int.floor_le _
    have h2 : a / b < ⌊a / b⌋ + 1 := Int.lt_floor_add_one _
    constructor
    · have : 0 ≤ a / b - ⌊a / b⌋ := by linarith
      have := mul_le_mul_of_nonneg_left this hb.le
      rw [mul_sub, mul_div_cancel₀ _ hb.ne'] at this
      linarith
    · have : a / b - ⌊a / b⌋ < 1 := by linarith
      have := mul_lt_mul_of_pos_left this hb
      rw [mul_sub, mul_div_cancel₀ _ hb.ne'] at this
      linarith
  · have h1 : a / b ≤ ⌈a / b⌉ := Int.le_ceil _
    have h2 : (⌈a / b⌉ : α) < a / b + 1 := Int.ceil_lt_add_one _
    constructor
    · have : (⌈a / b⌉ : α) - a / b < 1 := by linarith
      have := mul_lt_mul_of_pos_left this hb
      rw [mul_sub, mul_div_cancel₀ _ hb.ne'] at this
      linarith
    · have : 0 ≤ (⌈a / b⌉ : α) - a / b := by linarith
      have := mul_le_mul_of_nonneg_left this hb.le
      rw [mul_sub, mul_div_cancel₀ _ hb.ne'] at this
      linarith

theorem jsMod_nonneg {α : Type} [LinearOrderedField α] [FloorRing α]
    (a b : α) (hb : 0 < b) (ha : 0 ≤ a) : 0 ≤ jsMod a b := by
  unfold jsMod jsTrunc
  have hq : 0 ≤ a / b := div_nonneg ha hb.le
  rw [if_pos hq]
  have h1 : (⌊a / b⌋ : α) ≤ a / b := Int.floor_le _
  have := mul_le_mul_of_nonneg_left h1 hb.le
  rw [mul_div_cancel₀ _ hb.ne'] at this
  linarith

/-- `mod360` from `src/astronomy.js`: `((deg % 360) + 360) % 360`. -/
def mod360 {α : Type} [LinearOrderedField α] [FloorRing α] (deg : α) : α :=
  jsMod (jsMod deg 360 + 360) 360

theorem mod360_mem {α : Type} [LinearOrderedField α] [FloorRing α]
    (deg : α) : 0 ≤ mod360 deg ∧ mod360 deg < 360 := by
  unfold mod360
  have h360 : (0 : α) < 360 := by norm_num
  obtain ⟨hlo, _⟩ := jsMod_bounds deg 360 h360
  have hge : (0 : α) ≤ jsMod deg 360 + 360 := by linarith
  exact ⟨jsMod_nonneg _ _ h360 hge, (jsMod_bounds _ 360 h360).2⟩

/-! ### Zodiac constellation lookup (`getZodiacConstellation`)

Two generations of `astronomy.js` carry the same 14 half-open intervals in two
different scan orders.  `ZODIAC_BOUNDARIES` is the table of the standalone
`src/astronomy.js` (Capricorn first, Sagittarius last); `ZODIAC_BOUNDS` is the
table of the astronomy-engine generation (Sagittarius first, Ophiuchus last).
JavaScript fields `from`/`to` are named `lo`/`hi` here (`from` is reserved in
Lean).  Both generations end the scan with `return "Sgr"` as the fallback. -/

structure ZEntry where
  id : String
  lo : ℚ
  hi : ℚ
  deriving DecidableEq, Repr

def ZODIAC_BOUNDARIES : List ZEntry :=
  [ ⟨"Cap", 300.0, 327.0⟩,
    ⟨"Aqr", 327.0, 351.6⟩,
    ⟨"Psc", 351.6, 360.0⟩,
    ⟨"Psc",   0.0,  29.0⟩,
    ⟨"Ari",  29.0,  53.5⟩,
    ⟨"Tau",  53.5,  90.4⟩,
    ⟨"Gem",  90.4, 118.1⟩,
    ⟨"Cnc", 118.1, 138.1⟩,
    ⟨"Leo", 138.1, 174.1⟩,
    ⟨"Vir", 174.1, 217.8⟩,
    ⟨"Lib", 217.8, 241.0⟩,
    ⟨"Sco", 241.0, 247.7⟩,
    ⟨"Oph", 247.7, 266.3⟩,
    ⟨"Sgr", 266.3, 300.0⟩ ]

def ZODIAC_BOUNDS : List ZEntry :=
  [ ⟨"Sgr", 266.3, 300.0⟩,
    ⟨"Cap", 300.0, 327.0⟩,
    ⟨"Aqr", 327.0, 351.6⟩,
    ⟨"Psc", 351.6, 360.0⟩,
    ⟨"Psc",   0.0,  29.0⟩,
    ⟨"Ari",  29.0,  53.5⟩,
    ⟨"Tau",  53.5,  90.4⟩,
    ⟨"Gem",  90.4, 118.1⟩,
    ⟨"Cnc", 118.1, 138.1⟩,
    ⟨"Leo", 138.1, 174.1⟩,
    ⟨"Vir", 174.1, 217.8⟩,
    ⟨"Lib", 217.8, 241.0⟩,
    ⟨"Sco", 241.0, 247.7⟩,
    ⟨"Oph", 247.7, 266.3⟩ ]

/-- First-matching-interval scan shared by both generations:
`for (const z of table) if (lon >= z.from && lon < z.to) return z.id; return "Sgr";` -/
def zodiacLookup (lon : ℚ) : List ZEntry → String
  | [] => "Sgr"
  | z :: rest => if z.lo ≤ lon ∧ lon < z.hi then z.id else zodiacLookup lon rest

/-- `getZodiacConstellation` of the standalone `src/astronomy.js`. -/
def getZodiacConstellation (eclipticLon : ℚ) : String :=
  zodiacLookup eclipticLon ZODIAC_BOUNDARIES

/-- `getZodiacConstellation` of the astronomy-engine generation
(`part_002` / `part_003`), identical except for the table scan order. -/
def getZodiacConstellationV2 (eclipticLon : ℚ) : String :=
  zodiacLookup eclipticLon ZODIAC_BOUNDS

/-- The 13 IAU constellation codes used by the app. -/
def ZODIAC_CODES : List String :=
  ["Cap", "Aqr", "Psc", "Ari", "Tau", "Gem", "Cnc", "Leo", "Vir", "Lib",
   "Sco", "Oph", "Sgr"]

/-- Number of table intervals an ecliptic longitude satisfies. -/
def countMatches (lon : ℚ) : Nat :=
  ZODIAC_BOUNDARIES.countP fun z => decide (z.lo ≤ lon) && decide (lon < z.hi)

/-! ### Tropical (astrological) sign (`getTropicalSign`)

Identical in both generations of `astronomy.js`.  JavaScript fields
`from: [fm, fd]`, `to: [tm, td]` become four `Nat` fields. -/

structure TropEntry where
  name : String
  symbol : String
  fm : Nat
  fd : Nat
  tm : Nat
  td : Nat
  deriving DecidableEq, Repr

def TROPICAL_SIGNS : List TropEntry :=
  [ ⟨"Capricorn",   "♑", 12, 22,  1, 19⟩,
    ⟨"Aquarius",    "♒",  1, 20,  2, 18⟩,
    ⟨"Pisces",      "♓",  2, 19,  3, 20⟩,
    ⟨"Aries",       "♈",  3, 21,  4, 19⟩,
    ⟨"Taurus",      "♉",  4, 20,  5, 20⟩,
    ⟨"Gemini",      "♊",  5, 21,  6, 20⟩,
    ⟨"Cancer",      "♋",  6, 21,  7, 22⟩,
    ⟨"Leo",         "♌",  7, 23,  8, 22⟩,
    ⟨"Virgo",       "♍",  8, 23,  9, 22⟩,
    ⟨"Libra",       "♎",  9, 23, 10, 22⟩,
    ⟨"Scorpio",     "♏", 10, 23, 11, 21⟩,
    ⟨"Sagittarius", "♐", 11, 22, 12, 21⟩ ]

/-- The scan of `getTropicalSign`, returning the matched sign name (the source
returns the record and callers read `.name`); the fallback `TROPICAL[11]` is
the Sagittarius record. -/
def tropicalLookup (m d : Nat) : List TropEntry → String
  | [] => "Sagittarius"
  | s :: rest =>
    if (if s.tm < s.fm
        then (m = s.fm ∧ s.fd ≤ d) ∨ (m = s.tm ∧ d ≤ s.td) ∨ s.fm < m ∨ m < s.tm
        else (m = s.fm ∧ s.fd ≤ d) ∨ (m = s.tm ∧ d ≤ s.td) ∨ (s.fm < m ∧ m < s.tm))
    then s.name else tropicalLookup m d rest

/-- `getTropicalSign`, parametrized by the UTC month (1-12) and day-of-month
that the source reads off the `Date` with `getUTCMonth() + 1` / `getUTCDate()`. -/
def getTropicalSign (m d : Nat) : String :=
  tropicalLookup m d TROPICAL_SIGNS

/-! ### Partition structure of the zodiac boundary table

The 14 intervals of the table are exactly the consecutive pairs of the sorted
boundary list below (the source table lists them rotated, Capricorn first).
`pairsOf` turns a sorted list of boundaries into half-open intervals, and the
two counting lemmas show a value between the first and last boundary lies in
exactly one of them. -/

def pairsOf : List ℚ → List (ℚ × ℚ)
  | a :: b :: rest => (a, b) :: pairsOf (b :: rest)
  | _ => []

def matchB (x : ℚ) (p : ℚ × ℚ) : Bool :=
  decide (p.1 ≤ x) && decide (x < p.2)

theorem countP_pairsOf_zero (x : ℚ) :
    ∀ l : List ℚ, (∀ a ∈ l, x < a) → (pairsOf l).countP (matchB x) = 0 := by
  intro l
  induction l with
  | nil => intro _; rfl
  | cons a t ih =>
    intro h
    cases t with
    | nil => rfl
    | cons b rest =>
      have hxa : x < a := h a (List.mem_cons_self a _)
      have hm : matchB x (a, b) = false := by
        simp only [matchB, Bool.and_eq_false_iff, decide_eq_false_iff_not]
        exact Or.inl (not_le.mpr hxa)
      rw [show pairsOf (a :: b :: rest) = (a, b) :: pairsOf (b :: rest) from rfl,
        List.countP_cons, hm]
      simpa using ih fun c hc => h c (List.mem_cons_of_mem a hc)

theorem countP_pairsOf_one (x : ℚ) :
    ∀ (l : List ℚ) (a last : ℚ), List.Chain' (· < ·) (a :: l) →
      (a :: l).getLast? = some last → a ≤ x → x < last →
      (pairsOf (a :: l)).countP (matchB x) = 1 := by
  intro l
  induction l with
  | nil =>
    intro a last _ hlast hax hxl
    simp only [List.getLast?_singleton, Option.some.injEq] at hlast
    subst hlast
    exact absurd hxl (not_lt.mpr hax)
  | cons b rest ih =>
    intro a last hchain hlast hax hxl
    have hchain' : List.Chain' (· < ·) (b :: rest) := (List.chain'_cons.mp hchain).2
    have hlast' : (b :: rest).getLast? = some last := by
      rw [← hlast, List.getLast?_cons_cons]
    rw [show pairsOf (a :: b :: rest) = (a, b) :: pairsOf (b :: rest) from rfl,
      List.countP_cons]
    by_cases hxb : x < b
    · have hm : matchB x (a, b) = true := by
        simp only [matchB, Bool.and_eq_true, decide_eq_true_eq]
        exact ⟨hax, hxb⟩
      have h0 : (pairsOf (b :: rest)).countP (matchB x) = 0 := by
        apply countP_pairsOf_zero
        intro c hc
        rcases List.mem_cons.mp hc with rfl | hc'
        · exact hxb
        · have hp : List.Pairwise (· < ·) (b :: rest) :=
            List.chain'_iff_pairwise.mp hchain'
          exact hxb.trans ((List.pairwise_cons.mp hp).1 c hc')
      rw [hm, h0]
      norm_num
    · have hm : matchB x (a, b) = false := by
        simp only [matchB, Bool.and_eq_false_iff, decide_eq_false_iff_not]
        exact Or.inr hxb
      rw [hm]
      simpa using ih b last hchain' hlast' (not_lt.mp hxb) hxl

/-- The table's interval boundaries, in increasing order. -/
def BOUNDS_SORTED : List ℚ :=
  [0.0, 29.0, 53.5, 90.4, 118.1, 138.1, 174.1, 217.8, 241.0, 247.7, 266.3,
   300.0, 327.0, 351.6, 360.0]

theorem zodiac_table_rotation :
    ZODIAC_BOUNDARIES.map (fun z => (z.lo, z.hi)) =
      (pairsOf BOUNDS_SORTED).drop 11 ++ (pairsOf BOUNDS_SORTED).take 11 := rfl

theorem countMatches_eq_one (lon : ℚ) (h0 : 0 ≤ lon) (h1 : lon < 360) :
    countMatches lon = 1 := by
  have hcount : countMatches lon =
      ((pairsOf BOUNDS_SORTED).drop 11 ++ (pairsOf BOUNDS_SORTED).take 11).countP
        (matchB lon) := by
    rw [← zodiac_table_rotation, List.countP_map]
    rfl
  rw [hcount, List.countP_append, Nat.add_comm, ← List.countP_append,
    List.take_append_drop]
  have hchain : List.Chain' (· < ·) BOUNDS_SORTED := by
    norm_num [BOUNDS_SORTED, List.chain'_cons]
  have hlast : BOUNDS_SORTED.getLast? = some 360.0 := rfl
  have h1' : lon < (360.0 : ℚ) := by
    have : (360.0 : ℚ) = 360 := by norm_num
    rw [this]; exact h1
  have h0' : (0.0 : ℚ) ≤ lon := by
    have : (0.0 : ℚ) = 0 := by norm_num
    rw [this]; exact h0
  exact countP_pairsOf_one lon _ 0.0 360.0 hchain hlast h0' h1'

/-- The scan only ever returns an id present in the table, or the fallback. -/
theorem zodiacLookup_mem (x : ℚ) :
    ∀ l : List ZEntry, (∀ z ∈ l, z.id ∈ ZODIAC_CODES) →
      zodiacLookup x l ∈ ZODIAC_CODES := by
  intro l
  induction l with
  | nil =>
    intro _
    show ("Sgr" : String) ∈ ZODIAC_CODES
    decide
  | cons z rest ih =>
    intro h
    rw [zodiacLookup]
    split_ifs
    · exact h z (List.mem_cons_self z rest)
    · exact ih fun w hw => h w (List.mem_cons_of_mem z hw)

/-- If no interval matches, the scan falls through to `"Sgr"`. -/
theorem zodiacLookup_no_match (x : ℚ) :
    ∀ l : List ZEntry, (∀ z ∈ l, ¬(z.lo ≤ x ∧ x < z.hi)) →
      zodiacLookup x l = "Sgr" := by
  intro l
  induction l with
  | nil => intro _; rfl
  | cons z rest ih =>
    intro h
    rw [zodiacLookup, if_neg (h z (List.mem_cons_self z rest))]
    exact ih fun w hw => h w (List.mem_cons_of_mem z hw)

/-- Claim C1: for every ecliptic longitude in `[0, 360)` exactly one interval
of the 14-entry boundary table matches, `getZodiacConstellation` always
returns one of the 13 constellation codes, and at the boundary
`getZodiacConstellation 300 = "Cap"` while `getZodiacConstellation 299.999 =
"Sgr"`. -/
theorem C1_zodiac_lookup_total_unambiguous :
    (∀ lon : ℚ, 0 ≤ lon → lon < 360 → countMatches lon = 1) ∧
    (∀ lon : ℚ, getZodiacConstellation lon ∈ ZODIAC_CODES) ∧
    getZodiacConstellation 300 = "Cap" ∧
    getZodiacConstellation (299.999 : ℚ) = "Sgr" := by
  refine ⟨countMatches_eq_one, ?_, ?_, ?_⟩
  · exact fun lon => zodiacLookup_mem lon ZODIAC_BOUNDARIES (by decide)
  · norm_num [getZodiacConstellation, zodiacLookup, ZODIAC_BOUNDARIES]
  · norm_num [getZodiacConstellation, zodiacLookup, ZODIAC_BOUNDARIES]

/-- Witness for C1 at the concrete longitude 150. -/
theorem C1_zodiac_lookup_total_unambiguous_witness : countMatches 150 = 1 :=
  C1_zodiac_lookup_total_unambiguous.1 150 (by norm_num) (by norm_num)

/-- Claim C3: the calendar lookup handles the Capricorn range that wraps the
year boundary: Dec 25 and Jan 10 are Capricorn, Jan 20 is Aquarius. -/
theorem C3_tropical_sign_wrap :
    getTropicalSign 12 25 = "Capricorn" ∧
    getTropicalSign 1 10 = "Capricorn" ∧
    getTropicalSign 1 20 = "Aquarius" := by
  refine ⟨?_, ?_, ?_⟩ <;> decide

/-- Counterexample to claim C7: in the astronomy-engine generation
(`part_002`/`part_003`) the table lists Sagittarius first, so its *last* entry
is Ophiuchus, yet the no-match fallback still returns `"Sgr"` — not the id of
the last entry.  At longitude 400 no interval matches. -/
theorem C7_counterexample :
    getZodiacConstellationV2 400 = "Sgr" ∧
    ZODIAC_BOUNDS.getLast? = some ⟨"Oph", 247.7, 266.3⟩ ∧
    ("Sgr" : String) ≠ "Oph" := by
  refine ⟨?_, rfl, by decide⟩
  norm_num [getZodiacConstellationV2, zodiacLookup, ZODIAC_BOUNDS]

/-- Claim C7 (amended): when no interval matches, both generations of
`getZodiacConstellation` return the fixed code `"Sgr"`; this coincides with
the last table entry in the standalone `src/astronomy.js` ordering, but not
in the astronomy-engine ordering, whose last entry is Ophiuchus. -/
theorem C7_no_match_fallback (lon : ℚ)
    (h1 : ∀ z ∈ ZODIAC_BOUNDARIES, ¬(z.lo ≤ lon ∧ lon < z.hi))
    (h2 : ∀ z ∈ ZODIAC_BOUNDS, ¬(z.lo ≤ lon ∧ lon < z.hi)) :
    getZodiacConstellation lon = "Sgr" ∧
    getZodiacConstellationV2 lon = "Sgr" ∧
    ZODIAC_BOUNDARIES.getLast?.map ZEntry.id = some "Sgr" ∧
    ZODIAC_BOUNDS.getLast?.map ZEntry.id = some "Oph" :=
  ⟨zodiacLookup_no_match lon ZODIAC_BOUNDARIES h1,
   zodiacLookup_no_match lon ZODIAC_BOUNDS h2, rfl, rfl⟩

/-- Witness for C7 (amended) at the out-of-range longitude 400. -/
theorem C7_no_match_fallback_witness : getZodiacConstellation 400 = "Sgr" :=
  (C7_no_match_fallback 400 (by norm_num [ZODIAC_BOUNDARIES])
    (by norm_num [ZODIAC_BOUNDS])).1

/-! ### Stereographic projection (`project`, `src/rendering.js`)

Two generations again.  The standalone `src/rendering.js` takes the raw
`ra - centerRA` difference (and an unused `fov` parameter); the Vue-ported
generation (`part_000`) first normalizes the difference into `(-180, 180]`.
Since sine and cosine are `2π`-periodic the two agree pointwise
(`project_eq_projectF`). -/

noncomputable def toRad (d : ℝ) : ℝ := d * Real.pi / 180

noncomputable def toDeg (r : ℝ) : ℝ := r * 180 / Real.pi

/-- `project` of the standalone `src/rendering.js`: the `fov` parameter is
accepted (default 180) but, as in the source, never used. -/
noncomputable def projectF (ra dec centerRA : ℝ) (fov : ℝ := 180) : Option (ℝ × ℝ) :=
  let raRad := toRad (ra - centerRA)
  let decRad := toRad dec
  let cosDist := Real.cos decRad * Real.cos raRad
  if cosDist < -0.01 then none
  else some (Real.cos decRad * Real.sin raRad / (1 + cosDist),
    -Real.sin decRad / (1 + cosDist))

/-- Δra normalization of the `part_000` generation:
`if (dra > 180) dra -= 360; if (dra < -180) dra += 360;`. -/
noncomputable def normDra (dra : ℝ) : ℝ :=
  let d1 := if dra > 180 then dra - 360 else dra
  if d1 < -180 then d1 + 360 else d1

/-- `project` of the `part_000` generation. -/
noncomputable def project (ra dec centerRA : ℝ) : Option (ℝ × ℝ) :=
  let dra := normDra (ra - centerRA)
  let draR := toRad dra
  let decR := toRad dec
  let cosDist := Real.cos decR * Real.cos draR
  if cosDist < -0.01 then none
  else some (Real.cos decR * Real.sin draR / (1 + cosDist),
    -Real.sin decR / (1 + cosDist))

/-- Spherical angular-distance cosine
`cos(dec) · cos(ra − centerRA)` (in radians), as in the claims. -/
noncomputable def cosDist (ra dec centerRA : ℝ) : ℝ :=
  Real.cos (toRad dec) * Real.cos (toRad (ra - centerRA))

theorem cos_toRad_normDra (d : ℝ) :
    Real.cos (toRad (normDra d)) = Real.cos (toRad d) := by
  have hsub : toRad (d - 360) = toRad d - 2 * Real.pi := by unfold toRad; ring
  have hadd : toRad (d + 360) = toRad d + 2 * Real.pi := by unfold toRad; ring
  have hid : toRad (d - 360 + 360) = toRad d := by unfold toRad; ring
  simp only [normDra]
  split_ifs
  · rw [hid]
  · rw [hsub, Real.cos_sub_two_pi]
  · rw [hadd, Real.cos_add_two_pi]
  · rfl

theorem sin_toRad_normDra (d : ℝ) :
    Real.sin (toRad (normDra d)) = Real.sin (toRad d) := by
  have hsub : toRad (d - 360) = toRad d - 2 * Real.pi := by unfold toRad; ring
  have hadd : toRad (d + 360) = toRad d + 2 * Real.pi := by unfold toRad; ring
  have hid : toRad (d - 360 + 360) = toRad d := by unfold toRad; ring
  simp only [normDra]
  split_ifs
  · rw [hid]
  · rw [hsub, Real.sin_sub_two_pi]
  · rw [hadd, Real.sin_add_two_pi]
  · rfl

/-- The two generations of `project` agree pointwise. -/
theorem project_eq_projectF (ra dec centerRA fov : ℝ) :
    project ra dec centerRA = projectF ra dec centerRA fov := by
  simp only [project, projectF, cos_toRad_normDra, sin_toRad_normDra]

/-- Algebraic core of the stereographic projection: squared distance from the
origin is `(1 − cosDist) / (1 + cosDist)`, bounded by `1.01 / 0.99` above the
visibility cutoff. -/
theorem stereographic_core (δ α : ℝ) (h : -0.01 ≤ Real.cos δ * Real.cos α) :
    (Real.cos δ * Real.sin α / (1 + Real.cos δ * Real.cos α)) ^ 2 +
        (-Real.sin δ / (1 + Real.cos δ * Real.cos α)) ^ 2 =
      (1 - Real.cos δ * Real.cos α) / (1 + Real.cos δ * Real.cos α) ∧
    (1 - Real.cos δ * Real.cos α) / (1 + Real.cos δ * Real.cos α) ≤ 1.01 / 0.99 := by
  have hd : (0.99 : ℝ) ≤ 1 + Real.cos δ * Real.cos α := by
    have h99 : (0.99 : ℝ) = 1 + (-0.01) := by norm_num
    rw [h99]
    linarith
  have hdpos : (0 : ℝ) < 1 + Real.cos δ * Real.cos α := by
    have : (0 : ℝ) < 0.99 := by norm_num
    linarith
  constructor
  · have hs1 : Real.sin α ^ 2 + Real.cos α ^ 2 = 1 := Real.sin_sq_add_cos_sq α
    have hs2 : Real.sin δ ^ 2 + Real.cos δ ^ 2 = 1 := Real.sin_sq_add_cos_sq δ
    field_simp
    linear_combination (1 + Real.cos δ * Real.cos α) * Real.cos δ ^ 2 * hs1 +
      (1 + Real.cos δ * Real.cos α) * hs2
  · have hc1 : Real.cos δ * Real.cos α ≤ 1 := by
      nlinarith [Real.neg_one_le_cos δ, Real.cos_le_one δ,
        Real.neg_one_le_cos α, Real.cos_le_one α]
    rw [div_le_div_iff hdpos (by norm_num : (0 : ℝ) < 0.99)]
    nlinarith

/-- Claim C2: both generations of `project` return the absence value exactly
when `cosDist < -0.01`; at or above the cutoff they return a point, the
divisor `1 + cosDist` being at least `0.99`. -/
theorem C2_projection_visibility_cutoff (ra dec centerRA fov : ℝ) :
    (projectF ra dec centerRA fov = none ↔ cosDist ra dec centerRA < -0.01) ∧
    (project ra dec centerRA = none ↔ cosDist ra dec centerRA < -0.01) ∧
    (-0.01 ≤ cosDist ra dec centerRA →
      ∃ x y : ℝ, projectF ra dec centerRA fov = some (x, y) ∧
        project ra dec centerRA = some (x, y) ∧
        0.99 ≤ 1 + cosDist ra dec centerRA) := by
  have hF : projectF ra dec centerRA fov = none ↔ cosDist ra dec centerRA < -0.01 := by
    unfold projectF cosDist
    dsimp only
    split_ifs with h
    · simpa using h
    · simpa using h
  refine ⟨hF, ?_, ?_⟩
  · rw [project_eq_projectF ra dec centerRA fov]
    exact hF
  · intro h
    have hnot : ¬ (Real.cos (toRad dec) * Real.cos (toRad (ra - centerRA)) < -0.01) := by
      unfold cosDist at h
      exact not_lt.mpr h
    refine ⟨Real.cos (toRad dec) * Real.sin (toRad (ra - centerRA)) /
        (1 + Real.cos (toRad dec) * Real.cos (toRad (ra - centerRA))),
      -Real.sin (toRad dec) /
        (1 + Real.cos (toRad dec) * Real.cos (toRad (ra - centerRA))), ?_, ?_, ?_⟩
    · simp only [projectF]
      rw [if_neg hnot]
    · rw [project_eq_projectF ra dec centerRA fov]
      simp only [projectF]
      rw [if_neg hnot]
    · unfold cosDist at h ⊢
      have h99 : (0.99 : ℝ) = 1 + (-0.01) := by norm_num
      rw [h99]
      linarith

/-- Witness for C2 at `(ra, dec, centerRA) = (0, 0, 0)`, where `cosDist = 1`. -/
theorem C2_projection_visibility_cutoff_witness :
    ∃ x y : ℝ, projectF 0 0 0 180 = some (x, y) ∧ project 0 0 0 = some (x, y) ∧
      0.99 ≤ 1 + cosDist 0 0 0 :=
  (C2_projection_visibility_cutoff 0 0 0 180).2.2 (by norm_num [cosDist, toRad])

/-- Claim C6: the view center projects exactly to the origin, in both
generations of `project`. -/
theorem C6_center_projects_to_origin (centerRA : ℝ) :
    project centerRA 0 centerRA = some (0, 0) ∧
    projectF centerRA 0 centerRA 180 = some (0, 0) := by
  constructor
  · simp only [project, normDra]
    norm_num [toRad]
  · simp only [projectF]
    norm_num [toRad]

/-- Claim C9: any point returned by `project` satisfies
`x² + y² = (1 − cosDist)/(1 + cosDist) ≤ 1.01/0.99`, so the whole visible
hemisphere stays inside a bounded disk. -/
theorem C9_visible_points_bounded (ra dec centerRA x y : ℝ)
    (h : project ra dec centerRA = some (x, y)) :
    x ^ 2 + y ^ 2 =
      (1 - cosDist ra dec centerRA) / (1 + cosDist ra dec centerRA) ∧
    x ^ 2 + y ^ 2 ≤ 1.01 / 0.99 := by
  rw [project_eq_projectF ra dec centerRA 180] at h
  simp only [projectF] at h
  by_cases hc : Real.cos (toRad dec) * Real.cos (toRad (ra - centerRA)) < -0.01
  · rw [if_pos hc] at h
    exact absurd h (by simp)
  · rw [if_neg hc] at h
    simp only [Option.some.injEq, Prod.mk.injEq] at h
    obtain ⟨hx, hy⟩ := h
    subst hx
    subst hy
    have hcore := stereographic_core (toRad dec) (toRad (ra - centerRA)) (not_lt.mp hc)
    unfold cosDist
    exact ⟨hcore.1, hcore.1 ▸ hcore.2⟩

/-- Witness for C9 at `(0, 0, 0)`, which projects to the origin. -/
theorem C9_visible_points_bounded_witness :
    (0 : ℝ) ^ 2 + (0 : ℝ) ^ 2 = (1 - cosDist 0 0 0) / (1 + cosDist 0 0 0) ∧
    (0 : ℝ) ^ 2 + (0 : ℝ) ^ 2 ≤ 1.01 / 0.99 :=
  C9_visible_points_bounded 0 0 0 0 0 (by simp only [project, normDra]; norm_num [toRad])

/-! ### Sun and Moon position model (`part_002` generation of `astronomy.js`)

Time is the JavaScript epoch-millisecond value `date.getTime()`, modelled as a
real number.  `atan2 y x` is modelled by the argument of the complex number
`x + y·i`, matching `Math.atan2`'s range `(-π, π]`. -/

noncomputable def atan2 (y x : ℝ) : ℝ := Complex.arg ⟨x, y⟩

structure SunPos where
  ra : ℝ
  dec : ℝ
  lon : ℝ

/-- `getSunPosition` (`part_002`): mean longitude and anomaly, two-harmonic
equation of center, ecliptic → equatorial conversion with ecliptic latitude 0.
`946728000000` is `Date.UTC(2000, 0, 1, 12, 0, 0)` (the J2000.0 epoch). -/
noncomputable def getSunPosition (tms : ℝ) : SunPos :=
  let n := (tms - 946728000000) / 86400000
  let L := mod360 (280.460 + 0.9856474 * n)
  let g := toRad (mod360 (357.528 + 0.9856003 * n))
  let lon := mod360 (L + 1.915 * Real.sin g + 0.020 * Real.sin (2 * g))
  let eps := toRad (23.439 - 0.0000004 * n)
  let l := toRad lon
  { ra := mod360 (toDeg (atan2 (Real.cos eps * Real.sin l) (Real.cos l))),
    dec := toDeg (Real.arcsin (Real.sin eps * Real.sin l)),
    lon := lon }

structure MoonState where
  ra : ℝ
  dec : ℝ
  phase : ℝ

/-- `getMoon` (`part_002`): phase from the days elapsed since the reference
new moon (`Date.UTC(2000, 0, 6, 18, 14, 0)` = `947182440000` ms), RA advanced
from the Sun's RA, declination oscillating over the draconic month. -/
noncomputable def getMoon (tms : ℝ) : MoonState :=
  let days := (tms - 947182440000) / 86400000
  let synodic : ℝ := 29.53058867
  let phase0 := jsMod days synodic / synodic
  let phase := if phase0 < 0 then phase0 + 1 else phase0
  let sun := getSunPosition tms
  { ra := mod360 (sun.ra + jsMod days synodic * 12.19),
    dec := 5.145 * Real.sin (days / 27.21222 * (2 * Real.pi)),
    phase := phase }

/-- The phase normalization of the astronomy-engine generation of `getMoon`
(`part_003`): `mod360(Astronomy.MoonPhase(date)) / 360`, where
`Astronomy.MoonPhase` is an external library call modelled as an arbitrary
real input. -/
noncomputable def moonPhaseV2 (raw : ℝ) : ℝ := mod360 raw / 360

/-- Claim C4: for every time instant — including instants before the
reference new moon, where the elapsed-days value is negative — the Moon phase
lies in `[0, 1)`; likewise for the astronomy-engine generation's
normalization of an arbitrary library value. -/
theorem C4_moon_phase_in_unit_interval :
    (∀ tms : ℝ, 0 ≤ (getMoon tms).phase ∧ (getMoon tms).phase < 1) ∧
    (∀ raw : ℝ, 0 ≤ moonPhaseV2 raw ∧ moonPhaseV2 raw < 1) := by
  constructor
  · intro tms
    have hsyn : (0 : ℝ) < 29.53058867 := by norm_num
    set days := (tms - 947182440000) / 86400000 with hdays
    obtain ⟨hlo, hhi⟩ := jsMod_bounds days 29.53058867 hsyn
    have hphase : (getMoon tms).phase =
        if jsMod days 29.53058867 / 29.53058867 < 0
        then jsMod days 29.53058867 / 29.53058867 + 1
        else jsMod days 29.53058867 / 29.53058867 := rfl
    rw [hphase]
    have hq1 : jsMod days 29.53058867 / 29.53058867 < 1 := by
      rw [div_lt_one hsyn]
      exact hhi
    have hq2 : (-1 : ℝ) < jsMod days 29.53058867 / 29.53058867 := by
      rw [lt_div_iff hsyn]
      linarith
    split_ifs with hneg
    · constructor <;> linarith
    · constructor
      · exact not_lt.mp hneg
      · exact hq1
  · intro raw
    obtain ⟨h0, h1⟩ := mod360_mem (α := ℝ) raw
    unfold moonPhaseV2
    constructor
    · exact div_nonneg h0 (by norm_num)
    · rw [div_lt_one (by norm_num : (0:ℝ) < 360)]
      linarith

/-! ### Solar altitude / azimuth (`getSolarAltAz`, both generations)

The function reads `daysSinceJ2000(date)` and
`date.getUTCHours() + date.getUTCMinutes() / 60` from the `Date`; these two
time-derived quantities are the parameters `n` and `utcH` here, so the claim
is proved for every date (and indeed every real `n`, `utcH`). -/

structure AltAz where
  altitude : ℝ
  azimuth : ℝ

noncomputable def getSolarAltAz (n utcH lat lon : ℝ) : AltAz :=
  let dec := 23.45 * Real.sin (toRad (mod360 ((360 / 365) * (jsMod n 365 + 10))))
  let ha := (utcH + lon / 15 - 12) * 15
  let latR := toRad lat
  let decR := toRad dec
  let haR := toRad ha
  let sinAlt := Real.sin latR * Real.sin decR +
    Real.cos latR * Real.cos decR * Real.cos haR
  let altitude := toDeg (Real.arcsin (max (-1) (min 1 sinAlt)))
  let cosAlt := Real.cos (toRad altitude)
  let azimuth :=
    if cosAlt > 0.001 then
      let sinAz := Real.cos decR * Real.sin haR / cosAlt
      let cosAz := (Real.sin decR - Real.sin latR * sinAlt) /
        (Real.cos latR * cosAlt)
      mod360 (toDeg (atan2 sinAz cosAz))
    else 0
  { altitude := altitude, azimuth := azimuth }

/-- `toDeg ∘ arcsin` always lands in `[-90, 90]`. -/
theorem toDeg_arcsin_mem (c : ℝ) : -90 ≤ toDeg (Real.arcsin c) ∧ toDeg (Real.arcsin c) ≤ 90 := by
  have hπ : (0 : ℝ) < Real.pi := Real.pi_pos
  have h1 : Real.arcsin c ≤ Real.pi / 2 := Real.arcsin_le_pi_div_two c
  have h2 : -(Real.pi / 2) ≤ Real.arcsin c := Real.neg_pi_div_two_le_arcsin c
  unfold toDeg
  constructor
  · rw [le_div_iff hπ]
    nlinarith
  · rw [div_le_iff hπ]
    nlinarith

/-- Claim C10: for every date and observer location, `getSolarAltAz` returns
an altitude in `[-90, 90]` (its arcsine argument being clamped to `[-1, 1]`)
and an azimuth in `[0, 360)`. -/
theorem C10_solar_altaz_ranges (n utcH lat lon : ℝ) :
    (∀ s : ℝ, -1 ≤ max (-1) (min 1 s) ∧ max (-1) (min 1 s) ≤ 1) ∧
    -90 ≤ (getSolarAltAz n utcH lat lon).altitude ∧
    (getSolarAltAz n utcH lat lon).altitude ≤ 90 ∧
    0 ≤ (getSolarAltAz n utcH lat lon).azimuth ∧
    (getSolarAltAz n utcH lat lon).azimuth < 360 := by
  refine ⟨fun s => ⟨le_max_left _ _, max_le (by norm_num) (min_le_left 1 s)⟩,
    ?_, ?_, ?_, ?_⟩
  · exact (toDeg_arcsin_mem _).1
  · exact (toDeg_arcsin_mem _).2
  · unfold getSolarAltAz
    dsimp only
    split_ifs
    · exact (mod360_mem _).1
    · norm_num
  · unfold getSolarAltAz
    dsimp only
    split_ifs
    · exact (mod360_mem _).2
    · norm_num

/-! ### Scene compositor (`drawStarMap`, `part_000` generation of `rendering.js`)

The renderer is modelled by its emitted sequence of draw operations, one
`DrawOp` per canvas-drawing helper call (`clearRect`, `drawEarth`, one
`stroke()` per constellation polyline, `drawStarShape4`, `drawPlanet`,
`drawMoon`, `drawSpecialPoint`, `drawSun`), in source order.  A body whose
projection is `none` emits nothing.  `dpr` models
`window.devicePixelRatio || 1`; `cw`, `ch` are `ctx.canvas.width/height`. -/

structure EqPos where
  ra : ℝ
  dec : ℝ

structure MoonPos where
  ra : ℝ
  dec : ℝ
  phase : ℝ

structure ConstRec where
  id : String
  lines : List (List (ℝ × ℝ))

structure StarRec where
  ra : ℝ
  dec : ℝ
  mag : ℝ
  bv : ℝ

structure SpecialsArg where
  moon : Option MoonPos
  lilith : Option EqPos
  northNode : Option EqPos
  chiron : Option EqPos

structure DrawOpts where
  stars : List StarRec
  constellations : List ConstRec
  sunRA : ℝ
  sunDec : ℝ
  activeConstId : String
  planets : Option (List (String × Option EqPos))
  specials : Option SpecialsArg
  altitude : Option ℝ

inductive DrawOp where
  | clear
  | earth (altitude : ℝ)
  | stroke (id : String) (active : Bool) (path : List (Option (ℝ × ℝ)))
  | star (pos : ℝ × ℝ) (radius : ℝ) (color : String) (glow : Bool)
  | planet (id : String) (pos : ℝ × ℝ)
  | moon (pos : ℝ × ℝ) (phase : ℝ)
  | special (id : String) (pos : ℝ × ℝ)
  | sun (pos : ℝ × ℝ)

/-- `starColor` (`part_000`): 5 buckets of B-V color index; the string is the
rgb part of the rgba template the source interpolates alpha into. -/
noncomputable def starColor (bv : ℝ) : String :=
  if bv ≤ 0 then "rgba(180,200,255,"
  else if bv ≤ 0.5 then "rgba(240,240,255,"
  else if bv ≤ 1 then "rgba(255,255,220,"
  else if bv ≤ 1.5 then "rgba(255,220,180,"
  else "rgba(255,180,140,"

/-- `starRadius` (`part_000`): `Math.max(0.6, 3.2 - mag * 0.45)`. -/
noncomputable def starRadius (mag : ℝ) : ℝ := max 0.6 (3.2 - mag * 0.45)

/-- `px = cx + p.x * scale; py = cy + p.y * scale`. -/
noncomputable def toCanvas (cx cy scale : ℝ) (p : ℝ × ℝ) : ℝ × ℝ :=
  (cx + p.1 * scale, cy + p.2 * scale)

noncomputable def earthOps (altitude : Option ℝ) : List DrawOp :=
  match altitude with
  | none => []
  | some a => [DrawOp.earth a]

/-- One `stroke()` per polyline; the path records the per-vertex projection
results (the source starts a new subpath after each invisible vertex). -/
noncomputable def constOps (cx cy scale sunRA : ℝ) (activeId : String)
    (cs : List ConstRec) : List DrawOp :=
  cs.flatMap fun c =>
    c.lines.map fun line =>
      DrawOp.stroke c.id (c.id == activeId)
        (line.map fun v => (project v.1 v.2 sunRA).map (toCanvas cx cy scale))

noncomputable def starOps (cx cy scale sunRA : ℝ) (ss : List StarRec) : List DrawOp :=
  ss.filterMap fun s =>
    (project s.ra s.dec sunRA).map fun p =>
      DrawOp.star (toCanvas cx cy scale p) (starRadius s.mag) (starColor s.bv)
        (decide (s.mag < 3))

/-- The keys of the `PLANETS` definition object. -/
def PLANET_IDS : List String :=
  ["mercury", "venus", "mars", "jupiter", "saturn", "uranus", "neptune"]

noncomputable def planetOps (cx cy scale sunRA : ℝ)
    (ps : Option (List (String × Option EqPos))) : List DrawOp :=
  match ps with
  | none => []
  | some entries =>
    entries.filterMap fun e =>
      match e.2 with
      | none => none
      | some pos =>
        if PLANET_IDS.contains e.1 then
          (project pos.ra pos.dec sunRA).map fun p =>
            DrawOp.planet e.1 (toCanvas cx cy scale p)
        else none

noncomputable def moonOps (cx cy scale sunRA : ℝ) (m : Option MoonPos) : List DrawOp :=
  match m with
  | none => []
  | some mp =>
    match project mp.ra mp.dec sunRA with
    | none => []
    | some p => [DrawOp.moon (toCanvas cx cy scale p) mp.phase]

noncomputable def specialPointOps (cx cy scale sunRA : ℝ) (id : String)
    (e : Option EqPos) : List DrawOp :=
  match e with
  | none => []
  | some pos =>
    match project pos.ra pos.dec sunRA with
    | none => []
    | some p => [DrawOp.special id (toCanvas cx cy scale p)]

/-- The specials block of `drawStarMap`: the Moon is drawn first, then
`['lilith', 'northNode', 'chiron']` in order. -/
noncomputable def specialsOps (cx cy scale sunRA : ℝ)
    (sp : Option SpecialsArg) : List DrawOp :=
  match sp with
  | none => []
  | some s =>
    moonOps cx cy scale sunRA s.moon
      ++ specialPointOps cx cy scale sunRA "lilith" s.lilith
      ++ specialPointOps cx cy scale sunRA "northNode" s.northNode
      ++ specialPointOps cx cy scale sunRA "chiron" s.chiron

noncomputable def sunOps (cx cy scale sunRA sunDec : ℝ) : List DrawOp :=
  match project sunRA sunDec sunRA with
  | none => []
  | some p => [DrawOp.sun (toCanvas cx cy scale p)]

/-- `drawStarMap` (`part_000`): full clear, then Earth/horizon, constellation
lines, stars, planets, specials (Moon first), Sun last. -/
noncomputable def drawStarMap (dpr cw ch : ℝ) (o : DrawOpts) : List DrawOp :=
  let w := cw / dpr
  let h := ch / dpr
  let cx := w / 2
  let cy := h / 2
  let scale := min w h * 0.45
  DrawOp.clear ::
    (earthOps o.altitude
      ++ constOps cx cy scale o.sunRA o.activeConstId o.constellations
      ++ starOps cx cy scale o.sunRA o.stars
      ++ planetOps cx cy scale o.sunRA o.planets
      ++ specialsOps cx cy scale o.sunRA o.specials
      ++ sunOps cx cy scale o.sunRA o.sunDec)

def isMoonOp : DrawOp → Bool
  | DrawOp.moon _ _ => true
  | _ => false

def isSpecialOp : DrawOp → Bool
  | DrawOp.special _ _ => true
  | _ => false

def isSunOp : DrawOp → Bool
  | DrawOp.sun _ => true
  | _ => false

theorem earthOps_class (a : Option ℝ) :
    ∀ x ∈ earthOps a, isMoonOp x = false ∧ isSpecialOp x = false ∧ isSunOp x = false := by
  cases a with
  | none => simp [earthOps]
  | some v =>
    intro x hx
    simp only [earthOps, List.mem_singleton] at hx
    subst hx
    exact ⟨rfl, rfl, rfl⟩

theorem constOps_class (cx cy scale sunRA : ℝ) (activeId : String) (cs : List ConstRec) :
    ∀ x ∈ constOps cx cy scale sunRA activeId cs,
      isMoonOp x = false ∧ isSpecialOp x = false ∧ isSunOp x = false := by
  intro x hx
  simp only [constOps, List.mem_flatMap, List.mem_map] at hx
  obtain ⟨c, -, line, -, rfl⟩ := hx
  exact ⟨rfl, rfl, rfl⟩

theorem starOps_class (cx cy scale sunRA : ℝ) (ss : List StarRec) :
    ∀ x ∈ starOps cx cy scale sunRA ss,
      isMoonOp x = false ∧ isSpecialOp x = false ∧ isSunOp x = false := by
  intro x hx
  simp only [starOps, List.mem_filterMap] at hx
  obtain ⟨s, -, hx⟩ := hx
  rw [Option.map_eq_some'] at hx
  obtain ⟨p, -, rfl⟩ := hx
  exact ⟨rfl, rfl, rfl⟩

theorem planetOps_class (cx cy scale sunRA : ℝ) (ps : Option (List (String × Option EqPos))) :
    ∀ x ∈ planetOps cx cy scale sunRA ps,
      isMoonOp x = false ∧ isSpecialOp x = false ∧ isSunOp x = false := by
  cases ps with
  | none => simp [planetOps]
  | some entries =>
    intro x hx
    simp only [planetOps, List.mem_filterMap] at hx
    obtain ⟨e, -, hx⟩ := hx
    rcases e with ⟨id, _ | pos⟩
    · simp at hx
    · dsimp only at hx
      by_cases hin : PLANET_IDS.contains id = true
      · rw [if_pos hin, Option.map_eq_some'] at hx
        obtain ⟨p, -, rfl⟩ := hx
        exact ⟨rfl, rfl, rfl⟩
      · rw [if_neg hin] at hx
        exact absurd hx (by simp)

theorem moonOps_class (cx cy scale sunRA : ℝ) (m : Option MoonPos) :
    ∀ x ∈ moonOps cx cy scale sunRA m,
      isMoonOp x = true ∧ isSpecialOp x = false ∧ isSunOp x = false := by
  cases m with
  | none => simp [moonOps]
  | some mp =>
    intro x hx
    rcases hproj : project mp.ra mp.dec sunRA with _ | p
    · simp [moonOps, hproj] at hx
    · simp only [moonOps, hproj, List.mem_singleton] at hx
      subst hx
      exact ⟨rfl, rfl, rfl⟩

theorem specialPointOps_class (cx cy scale sunRA : ℝ) (id : String) (e : Option EqPos) :
    ∀ x ∈ specialPointOps cx cy scale sunRA id e,
      isSpecialOp x = true ∧ isMoonOp x = false ∧ isSunOp x = false := by
  cases e with
  | none => simp [specialPointOps]
  | some pos =>
    intro x hx
    rcases hproj : project pos.ra pos.dec sunRA with _ | p
    · simp [specialPointOps, hproj] at hx
    · simp only [specialPointOps, hproj, List.mem_singleton] at hx
      subst hx
      exact ⟨rfl, rfl, rfl⟩

theorem sunOps_class (cx cy scale sunRA sunDec : ℝ) :
    ∀ x ∈ sunOps cx cy scale sunRA sunDec,
      isSunOp x = true ∧ isMoonOp x = false ∧ isSpecialOp x = false := by
  intro x hx
  rcases hproj : project sunRA sunDec sunRA with _ | p
  · simp [sunOps, hproj] at hx
  · simp only [sunOps, hproj, List.mem_singleton] at hx
    subst hx
    exact ⟨rfl, rfl, rfl⟩

theorem specialsOps_not_sun (cx cy scale sunRA : ℝ) (sp : Option SpecialsArg) :
    ∀ x ∈ specialsOps cx cy scale sunRA sp, isSunOp x = false := by
  cases sp with
  | none => simp [specialsOps]
  | some s =>
    intro x hx
    simp only [specialsOps, List.mem_append] at hx
    rcases hx with ((hx | hx) | hx) | hx
    · exact (moonOps_class _ _ _ _ _ x hx).2.2
    · exact (specialPointOps_class _ _ _ _ _ _ x hx).2.2
    · exact (specialPointOps_class _ _ _ _ _ _ x hx).2.2
    · exact (specialPointOps_class _ _ _ _ _ _ x hx).2.2

/-- Positional consequence of a no-`Q` prefix / no-`P` suffix decomposition:
any `P` element sits strictly before any `Q` element. -/
theorem before_of_eq_append {α : Type} (l A B : List α) (P Q : α → Bool)
    (hl : l = A ++ B) (hA : ∀ x ∈ A, Q x = false) (hB : ∀ x ∈ B, P x = false)
    (i j : Nat) (x y : α) (hx : l.get? i = some x) (hy : l.get? j = some y)
    (hPx : P x = true) (hQy : Q y = true) : i < j := by
  subst hl
  have hiA : i < A.length := by
    by_contra hge
    push_neg at hge
    rw [List.get?_append_right hge] at hx
    have hmem : x ∈ B := List.get?_mem hx
    rw [hB x hmem] at hPx
    exact Bool.false_ne_true hPx
  have hjA : A.length ≤ j := by
    by_contra hlt
    push_neg at hlt
    rw [List.get?_append hlt] at hy
    have hmem : y ∈ A := List.get?_mem hy
    rw [hA y hmem] at hQy
    exact Bool.false_ne_true hQy
  omega

theorem drawStarMap_moon_special_split (dpr cw ch : ℝ) (o : DrawOpts) :
    ∃ A B : List DrawOp,
      drawStarMap dpr cw ch o = A ++ B ∧
      (∀ x ∈ A, isSpecialOp x = false) ∧
      (∀ x ∈ B, isMoonOp x = false) := by
  rcases hsp : o.specials with _ | s
  · refine ⟨drawStarMap dpr cw ch o, [], (List.append_nil _).symm, ?_, by simp⟩
    intro x hx
    simp only [drawStarMap, hsp, specialsOps, List.mem_cons, List.mem_append,
      List.append_nil] at hx
    rcases hx with rfl | ((((hx | hx) | hx) | hx) | hx)
    · rfl
    · exact (earthOps_class _ x hx).2.1
    · exact (constOps_class _ _ _ _ _ _ x hx).2.1
    · exact (starOps_class _ _ _ _ _ x hx).2.1
    · exact (planetOps_class _ _ _ _ _ x hx).2.1
    · exact (sunOps_class _ _ _ _ _ x hx).2.2
  · refine ⟨DrawOp.clear ::
        (earthOps o.altitude
          ++ constOps (cw / dpr / 2) (ch / dpr / 2) (min (cw / dpr) (ch / dpr) * 0.45)
            o.sunRA o.activeConstId o.constellations
          ++ starOps (cw / dpr / 2) (ch / dpr / 2) (min (cw / dpr) (ch / dpr) * 0.45)
            o.sunRA o.stars
          ++ planetOps (cw / dpr / 2) (ch / dpr / 2) (min (cw / dpr) (ch / dpr) * 0.45)
            o.sunRA o.planets
          ++ moonOps (cw / dpr / 2) (ch / dpr / 2) (min (cw / dpr) (ch / dpr) * 0.45)
            o.sunRA s.moon),
      specialPointOps (cw / dpr / 2) (ch / dpr / 2) (min (cw / dpr) (ch / dpr) * 0.45)
          o.sunRA "lilith" s.lilith
        ++ specialPointOps (cw / dpr / 2) (ch / dpr / 2) (min (cw / dpr) (ch / dpr) * 0.45)
          o.sunRA "northNode" s.northNode
        ++ specialPointOps (cw / dpr / 2) (ch / dpr / 2) (min (cw / dpr) (ch / dpr) * 0.45)
          o.sunRA "chiron" s.chiron
        ++ sunOps (cw / dpr / 2) (ch / dpr / 2) (min (cw / dpr) (ch / dpr) * 0.45)
          o.sunRA o.sunDec, ?_, ?_, ?_⟩
    · simp only [drawStarMap, hsp, specialsOps, List.cons_append, List.append_assoc]
    · intro x hx
      simp only [List.mem_cons, List.mem_append] at hx
      rcases hx with rfl | ((((hx | hx) | hx) | hx) | hx)
      · rfl
      · exact (earthOps_class _ x hx).2.1
      · exact (constOps_class _ _ _ _ _ _ x hx).2.1
      · exact (starOps_class _ _ _ _ _ x hx).2.1
      · exact (planetOps_class _ _ _ _ _ x hx).2.1
      · exact (moonOps_class _ _ _ _ _ x hx).2.1
    · intro x hx
      simp only [List.mem_append] at hx
      rcases hx with ((hx | hx) | hx) | hx
      · exact (specialPointOps_class _ _ _ _ _ _ x hx).2.1
      · exact (specialPointOps_class _ _ _ _ _ _ x hx).2.1
      · exact (specialPointOps_class _ _ _ _ _ _ x hx).2.1
      · exact (sunOps_class _ _ _ _ _ x hx).2.1

theorem drawStarMap_sun_split (dpr cw ch : ℝ) (o : DrawOpts) :
    ∃ A B : List DrawOp,
      drawStarMap dpr cw ch o = A ++ B ∧
      (∀ x ∈ A, isSunOp x = false) ∧
      (∀ x ∈ B, isSunOp x = true) := by
  refine ⟨DrawOp.clear ::
      (earthOps o.altitude
        ++ constOps (cw / dpr / 2) (ch / dpr / 2) (min (cw / dpr) (ch / dpr) * 0.45)
          o.sunRA o.activeConstId o.constellations
        ++ starOps (cw / dpr / 2) (ch / dpr / 2) (min (cw / dpr) (ch / dpr) * 0.45)
          o.sunRA o.stars
        ++ planetOps (cw / dpr / 2) (ch / dpr / 2) (min (cw / dpr) (ch / dpr) * 0.45)
          o.sunRA o.planets
        ++ specialsOps (cw / dpr / 2) (ch / dpr / 2) (min (cw / dpr) (ch / dpr) * 0.45)
          o.sunRA o.specials),
    sunOps (cw / dpr / 2) (ch / dpr / 2) (min (cw / dpr) (ch / dpr) * 0.45)
      o.sunRA o.sunDec, ?_, ?_, ?_⟩
  · simp only [drawStarMap, List.cons_append, List.append_assoc]
  · intro x hx
    simp only [List.mem_cons, List.mem_append] at hx
    rcases hx with rfl | ((((hx | hx) | hx) | hx) | hx)
    · rfl
    · exact (earthOps_class _ x hx).2.2
    · exact (constOps_class _ _ _ _ _ _ x hx).2.2
    · exact (starOps_class _ _ _ _ _ x hx).2.2
    · exact (planetOps_class _ _ _ _ _ x hx).2.2
    · exact specialsOps_not_sun _ _ _ _ _ x hx
  · intro x hx
    exact (sunOps_class _ _ _ _ _ x hx).1

/-- Claim C5 (amended): in the emitted draw-operation sequence the Moon draw
precedes every other special-point draw (the source draws `specials.moon`
first, then lilith/northNode/chiron), and every non-Sun draw precedes the Sun
draw, which is last.  The claim's stated order — special points before the
Moon — is refuted by `C5_claimed_order_counterexample`. -/
theorem C5_layer_order_amended (dpr cw ch : ℝ) (o : DrawOpts)
    (i j : Nat) (x y : DrawOp)
    (hx : (drawStarMap dpr cw ch o).get? i = some x)
    (hy : (drawStarMap dpr cw ch o).get? j = some y) :
    (isMoonOp x = true → isSpecialOp y = true → i < j) ∧
    (isSunOp x = false → isSunOp y = true → i < j) := by
  constructor
  · intro hm hs
    obtain ⟨A, B, hl, hA, hB⟩ := drawStarMap_moon_special_split dpr cw ch o
    exact before_of_eq_append _ A B isMoonOp isSpecialOp hl hA hB i j x y hx hy hm hs
  · intro hns hsun
    obtain ⟨A, B, hl, hA, hB⟩ := drawStarMap_sun_split dpr cw ch o
    refine before_of_eq_append _ A B (fun z => !isSunOp z) isSunOp hl hA ?_ i j x y hx hy ?_ hsun
    · intro z hz
      simp only [hB z hz, Bool.not_true]
    · simp only [hns, Bool.not_false]

/-- A concrete frame: Moon and Lilith both at the view center, no other
bodies; the Sun at the center as well. -/
noncomputable def demoOpts : DrawOpts :=
  { stars := [], constellations := [], sunRA := 0, sunDec := 0,
    activeConstId := "", planets := none,
    specials := some { moon := some ⟨0, 0, 0.5⟩, lilith := some ⟨0, 0⟩,
                       northNode := none, chiron := none },
    altitude := none }

theorem project_zero : project 0 0 0 = some (0, 0) := by
  simp only [project, normDra]
  norm_num [toRad]

theorem drawStarMap_demoOpts :
    drawStarMap 1 2 2 demoOpts =
      [DrawOp.clear, DrawOp.moon (1, 1) 0.5, DrawOp.special "lilith" (1, 1),
       DrawOp.sun (1, 1)] := by
  simp only [drawStarMap, demoOpts, earthOps, constOps, starOps, planetOps,
    specialsOps, moonOps, specialPointOps, sunOps, project_zero, toCanvas]
  norm_num

/-- Counterexample to claim C5 as stated: on `demoOpts` the Moon is drawn at
index 1 and the special point Lilith at index 2, so not every special-point
draw precedes the Moon draw. -/
theorem C5_claimed_order_counterexample :
    ¬ (∀ (i j : Nat) (x y : DrawOp),
        (drawStarMap 1 2 2 demoOpts).get? i = some x →
        (drawStarMap 1 2 2 demoOpts).get? j = some y →
        isSpecialOp x = true → isMoonOp y = true → i < j) := by
  intro h
  have := h 2 1 (DrawOp.special "lilith" (1, 1)) (DrawOp.moon (1, 1) 0.5)
    (by rw [drawStarMap_demoOpts]; rfl) (by rw [drawStarMap_demoOpts]; rfl) rfl rfl
  omega

/-- Witness for the amended C5 on the concrete frame `demoOpts`:
the Moon (index 1) precedes Lilith (index 2). -/
theorem C5_layer_order_amended_witness : (1 : Nat) < 2 :=
  (C5_layer_order_amended 1 2 2 demoOpts 1 2 (DrawOp.moon (1, 1) 0.5)
      (DrawOp.special "lilith" (1, 1))
      (by rw [drawStarMap_demoOpts]; rfl)
      (by rw [drawStarMap_demoOpts]; rfl)).1 rfl rfl

/-! ### Rendering determinism (claim C8)

The canvas is modelled as the list of operations drawn since the last full
clear; `applyOp` is the canvas-state transition of one operation
(`clearRect(0, 0, w, h)` erases everything).  Since `drawStarMap` begins with
a full clear, the painted frame is independent of whatever was on the canvas
before the call — the source keeps no module-level mutable state, so the
emitted operations are a pure function of the inputs. -/

def applyOp (canvas : List DrawOp) (op : DrawOp) : List DrawOp :=
  match op with
  | DrawOp.clear => []
  | op => canvas ++ [op]

/-- One `drawStarMap` call on a canvas currently holding `prev`. -/
noncomputable def renderFrame (prev : List DrawOp) (dpr cw ch : ℝ) (o : DrawOpts) :
    List DrawOp :=
  (drawStarMap dpr cw ch o).foldl applyOp prev

/-- Claim C8: a render is deterministic and stateless — the frame produced is
independent of the previous canvas contents, and two calls with identical
inputs produce the identical operation sequence (the same fold of the same
`drawStarMap` output). -/
theorem C8_render_deterministic_stateless (dpr cw ch : ℝ) (o : DrawOpts)
    (prev1 prev2 : List DrawOp) :
    renderFrame prev1 dpr cw ch o = renderFrame prev2 dpr cw ch o ∧
    renderFrame prev1 dpr cw ch o = (drawStarMap dpr cw ch o).foldl applyOp [] :=
  ⟨rfl, rfl⟩

end RealZodiac
